import Mathlib

/-!
Verification of the `hipc` crate (HIPC command builder and serializer).

Shallow embedding: Rust machine integers are modelled as `Nat` with explicit
`% 2 ^ w` at every narrowing cast; the target is aarch64, so `usize` is 64
bits wide.  Const-evaluation panics (the crate's composition-time failures)
and the runtime panics of `byte_array_write` are modelled by `Option`.
-/

namespace Hipc

/-! ## Bitfield primitives, from `src/packed.rs`

`bitmask`, `extract`, `set` are generic over an unsigned word type `T`; here
the bit width `w` of `T` is passed explicitly (it only matters for the `!`
complement inside `set`).
-/

/-- The `while current < msb` loop of `bitmask`, with the decreasing measure
`msb - current` as explicit fuel so that the definition reduces by kernel
computation. -/
def bitmaskAuxF : Nat → Nat → Nat → Nat → Nat
  | 0, _, mask, _ => mask
  | fuel + 1, msb, mask, current =>
      if current < msb then bitmaskAuxF fuel msb (mask ||| (1 <<< current)) (current + 1)
      else mask

def bitmaskAux (msb mask current : Nat) : Nat := bitmaskAuxF (msb - current) msb mask current

/-- `bitmask(lsb, msb)`: mask with bits `[lsb, msb)` set. -/
def bitmask (lsb msb : Nat) : Nat := bitmaskAux msb 0 lsb

/-- `extract(value, lsb, msb)`: bits `[lsb, msb)` of `value`, right-aligned. -/
def extract (value lsb msb : Nat) : Nat := (value &&& bitmask lsb msb) >>> lsb

/-- Bitwise complement `!x` of a `w`-bit word (defined for `x < 2 ^ w`). -/
def wnot (w x : Nat) : Nat := (2 ^ w - 1) ^^^ x

/-- `set::<T>(src, dst, src_lsb, dst_lsb, len)` where `T` is `w` bits wide. -/
def set (w src dst src_lsb dst_lsb len : Nat) : Nat :=
  (dst &&& wnot w (bitmask dst_lsb (dst_lsb + len))) |||
    (extract src src_lsb (src_lsb + len) <<< dst_lsb)

/-- `x as u32` (also `u64 → u32`, `usize → u32` truncations). -/
def castU32 (x : Nat) : Nat := x % 2 ^ 32

theorem testBit_bitmaskAuxF (fuel : Nat) : ∀ msb mask current i, msb - current ≤ fuel →
    (bitmaskAuxF fuel msb mask current).testBit i =
      (mask.testBit i || (decide (current ≤ i) && decide (i < msb))) := by
  induction fuel with
  | zero =>
    intro msb mask current i h
    rw [bitmaskAuxF]
    by_cases hc : current ≤ i
    · simp [show ¬ i < msb by omega]
    · simp [hc]
  | succ fuel ih =>
    intro msb mask current i h
    rw [bitmaskAuxF]
    by_cases hlt : current < msb
    · rw [if_pos hlt, ih msb _ (current + 1) i (by omega)]
      simp only [Nat.testBit_or, Nat.shiftLeft_eq, Nat.one_mul, Nat.testBit_two_pow]
      rcases Nat.lt_trichotomy i current with h1 | h1 | h1
      · simp [show current ≠ i by omega, show ¬ current + 1 ≤ i by omega,
          show ¬ current ≤ i by omega]
      · subst h1
        simp [hlt]
      · simp [show current ≠ i by omega, show current + 1 ≤ i by omega,
          show current ≤ i by omega]
    · rw [if_neg hlt]
      by_cases hc : current ≤ i
      · simp [show ¬ i < msb by omega]
      · simp [hc]

theorem testBit_bitmaskAux (msb mask current i : Nat) :
    (bitmaskAux msb mask current).testBit i =
      (mask.testBit i || (decide (current ≤ i) && decide (i < msb))) :=
  testBit_bitmaskAuxF (msb - current) msb mask current i (Nat.le_refl _)

theorem testBit_bitmask (lsb msb i : Nat) :
    (bitmask lsb msb).testBit i = (decide (lsb ≤ i) && decide (i < msb)) := by
  rw [bitmask, testBit_bitmaskAux]
  simp

theorem testBit_extract (v lo hi i : Nat) :
    (extract v lo hi).testBit i = (v.testBit (lo + i) && decide (lo + i < hi)) := by
  rw [extract, Nat.testBit_shiftRight, Nat.testBit_and, testBit_bitmask]
  simp [Nat.le_add_right]

theorem extract_eq_div_mod (v lo hi : Nat) :
    extract v lo hi = v / 2 ^ lo % 2 ^ (hi - lo) := by
  apply Nat.eq_of_testBit_eq
  intro i
  have h1 : (i < hi - lo) ↔ (lo + i < hi) := by omega
  rw [testBit_extract, Nat.testBit_mod_two_pow, ← Nat.shiftRight_eq_div_pow,
    Nat.testBit_shiftRight, Bool.and_comm]
  congr 1
  exact decide_eq_decide.mpr h1.symm

theorem extract_lt (v lo hi : Nat) : extract v lo hi < 2 ^ (hi - lo) := by
  rw [extract_eq_div_mod]
  exact Nat.mod_lt _ (Nat.pos_pow_of_pos _ (by omega))

theorem testBit_wnot_bitmask (w lo hi i : Nat) :
    (wnot w (bitmask lo hi)).testBit i =
      (decide (i < w) ^^ (decide (lo ≤ i) && decide (i < hi))) := by
  rw [wnot, Nat.testBit_xor, Nat.testBit_two_pow_sub_one, testBit_bitmask]

/-- `set` as plain arithmetic: bits of `dst` below `dst_lsb`, then `len` bits
taken from `src` at `src_lsb`, then the bits of `dst` (as a `w`-bit word)
above the written range. -/
theorem set_eq (w src dst slsb dlsb len : Nat) (hw : dlsb + len ≤ w) :
    set w src dst slsb dlsb len =
      dst % 2 ^ dlsb + src / 2 ^ slsb % 2 ^ len * 2 ^ dlsb
        + dst % 2 ^ w / 2 ^ (dlsb + len) * 2 ^ (dlsb + len) := by
  have hlow : dst % 2 ^ dlsb < 2 ^ dlsb := Nat.mod_lt _ (Nat.pos_pow_of_pos _ (by omega))
  have hmid : src / 2 ^ slsb % 2 ^ len < 2 ^ len :=
    Nat.mod_lt _ (Nat.pos_pow_of_pos _ (by omega))
  have hinner : 2 ^ dlsb * (src / 2 ^ slsb % 2 ^ len) + dst % 2 ^ dlsb < 2 ^ (dlsb + len) := by
    calc 2 ^ dlsb * (src / 2 ^ slsb % 2 ^ len) + dst % 2 ^ dlsb
        < 2 ^ dlsb * (src / 2 ^ slsb % 2 ^ len) + 2 ^ dlsb := by omega
      _ = 2 ^ dlsb * (src / 2 ^ slsb % 2 ^ len + 1) := by ring
      _ ≤ 2 ^ dlsb * 2 ^ len := Nat.mul_le_mul_left _ (by omega)
      _ = 2 ^ (dlsb + len) := by rw [pow_add]
  have hmid' : src / 2 ^ slsb % 2 ^ len = extract src slsb (slsb + len) := by
    rw [extract_eq_div_mod, Nat.add_sub_cancel_left]
  apply Nat.eq_of_testBit_eq
  intro i
  have hR : (dst % 2 ^ dlsb + src / 2 ^ slsb % 2 ^ len * 2 ^ dlsb
      + dst % 2 ^ w / 2 ^ (dlsb + len) * 2 ^ (dlsb + len)).testBit i
      = if i < dlsb + len
          then (2 ^ dlsb * (src / 2 ^ slsb % 2 ^ len) + dst % 2 ^ dlsb).testBit i
          else (dst % 2 ^ w / 2 ^ (dlsb + len)).testBit (i - (dlsb + len)) := by
    rw [show dst % 2 ^ dlsb + src / 2 ^ slsb % 2 ^ len * 2 ^ dlsb
      + dst % 2 ^ w / 2 ^ (dlsb + len) * 2 ^ (dlsb + len)
      = 2 ^ (dlsb + len) * (dst % 2 ^ w / 2 ^ (dlsb + len))
        + (2 ^ dlsb * (src / 2 ^ slsb % 2 ^ len) + dst % 2 ^ dlsb) from by ring]
    exact Nat.testBit_mul_pow_two_add _ hinner i
  rw [hR]
  unfold set
  rw [Nat.testBit_or, Nat.testBit_and, testBit_wnot_bitmask, Nat.testBit_shiftLeft]
  rcases Nat.lt_trichotomy i dlsb with hi1 | hi1 | hi1
  · -- below the written range: bit comes from dst
    rw [if_pos (by omega), Nat.testBit_mul_pow_two_add _ hlow, if_pos hi1]
    simp [show i < w by omega, show ¬ dlsb ≤ i by omega, hi1]
  · -- at the lower edge of the written range
    subst hi1
    by_cases hlen : 0 < len
    · rw [if_pos (by omega), Nat.testBit_mul_pow_two_add _ hlow, if_neg (by omega)]
      rw [hmid', testBit_extract]
      simp [show i < w by omega, show i ≤ i by omega, show i < i + len by omega,
        show i - i = 0 by omega, show slsb + 0 < slsb + len by omega]
    · have hlen0 : len = 0 := by omega
      subst hlen0
      rw [if_neg (by omega), ← Nat.shiftRight_eq_div_pow, Nat.testBit_shiftRight]
      simp only [Nat.add_zero, Nat.sub_self]
      rw [Nat.testBit_mod_two_pow]
      simp [show extract src slsb slsb = 0 from by
          rw [extract_eq_div_mod]; simp [Nat.mod_one],
        show ¬ i < i by omega, Bool.and_comm]
  · -- above dlsb
    by_cases hi2 : i < dlsb + len
    · -- inside the written range: bit comes from src
      rw [if_pos hi2, Nat.testBit_mul_pow_two_add _ hlow, if_neg (by omega)]
      rw [hmid', testBit_extract]
      simp [show i < w by omega, show dlsb ≤ i by omega, hi2]
    · -- above the written range: bit comes from dst as a w-bit word
      rw [if_neg hi2, ← Nat.shiftRight_eq_div_pow, Nat.testBit_shiftRight,
        Nat.testBit_mod_two_pow, show dlsb + len + (i - (dlsb + len)) = i from by omega]
      rw [testBit_extract]
      simp [hi2, show ¬ slsb + (i - dlsb) < slsb + len by omega, Bool.and_comm]

/-! ## Packed descriptors, from `src/packed.rs` -/

/-- `StaticDescriptor([u32; 2])`. -/
structure StaticDescriptor where
  w0 : Nat
  w1 : Nat
deriving DecidableEq, Repr

def StaticDescriptor.index (d : StaticDescriptor) : Nat := extract d.w0 0 6

def StaticDescriptor.size (d : StaticDescriptor) : Nat := extract d.w0 16 32

def StaticDescriptor.address (d : StaticDescriptor) : Nat :=
  let addr := set 64 d.w1 0 0 0 32
  let addr := set 64 d.w0 addr 12 32 4
  set 64 d.w0 addr 6 36 6

def StaticDescriptor.new (index size address : Nat) : StaticDescriptor :=
  let first := set 32 (castU32 index) 0 0 0 6
  let first := castU32 (set 64 address first 36 6 6)
  let first := castU32 (set 64 address first 32 12 4)
  let first := set 32 (castU32 size) first 0 16 16
  let second := castU32 (set 64 address 0 0 0 32)
  ⟨first, second⟩

theorem static_rt_index (i s a : Nat) :
    (StaticDescriptor.new i s a).index = i % 2 ^ 6 := by
  simp only [StaticDescriptor.new, StaticDescriptor.index, castU32]
  simp [set_eq, extract_eq_div_mod]
  omega

theorem static_rt_size (i s a : Nat) :
    (StaticDescriptor.new i s a).size = s % 2 ^ 16 := by
  simp only [StaticDescriptor.new, StaticDescriptor.size, castU32]
  simp [set_eq, extract_eq_div_mod]
  omega

theorem static_new_w0 (i s a : Nat) :
    (StaticDescriptor.new i s a).w0
      = i % 64 + a / 2 ^ 36 % 64 * 64 + a / 2 ^ 32 % 16 * 4096 + s % 2 ^ 16 * 65536 := by
  simp only [StaticDescriptor.new, castU32]
  simp [set_eq, extract_eq_div_mod]
  omega

theorem static_new_w1 (i s a : Nat) :
    (StaticDescriptor.new i s a).w1 = a % 2 ^ 32 := by
  simp only [StaticDescriptor.new, castU32]
  simp [set_eq, extract_eq_div_mod]

/-- Reading a bit-field slot out of a packed word written as
`low + field * q + high * (q * r)`. -/
theorem div_mod_slot (A C D q r : Nat) (hq : 0 < q) (hA : A < q) (hC : C < r) :
    (A + C * q + D * (q * r)) / q % r = C := by
  rw [show A + C * q + D * (q * r) = A + (C + D * r) * q from by ring,
    Nat.add_mul_div_right _ _ hq, Nat.div_eq_of_lt hA, Nat.zero_add,
    Nat.add_mul_mod_self_right, Nat.mod_eq_of_lt hC]

theorem mod_slot (A B q : Nat) (hA : A < q) : (A + B * q) % q = A := by
  rw [Nat.add_mul_mod_self_right, Nat.mod_eq_of_lt hA]

theorem div_slot (A D q : Nat) (hq : 0 < q) (hA : A < q) : (A + D * q) / q = D := by
  rw [Nat.add_mul_div_right _ _ hq, Nat.div_eq_of_lt hA, Nat.zero_add]

theorem static_rt_address (i s a : Nat) :
    (StaticDescriptor.new i s a).address = a % 2 ^ 42 := by
  have hf : (i % 64 + a / 2 ^ 36 % 64 * 64 + a / 2 ^ 32 % 16 * 4096 + s % 2 ^ 16 * 65536)
      / 4096 % 16 = a / 2 ^ 32 % 16 := by
    rw [show i % 64 + a / 2 ^ 36 % 64 * 64 + a / 2 ^ 32 % 16 * 4096 + s % 2 ^ 16 * 65536
        = (i % 64 + a / 2 ^ 36 % 64 * 64) + a / 2 ^ 32 % 16 * 4096 + s % 2 ^ 16 * (4096 * 16)
        from by ring]
    exact div_mod_slot _ _ _ _ _ (by norm_num) (by omega) (by omega)
  have hg : (i % 64 + a / 2 ^ 36 % 64 * 64 + a / 2 ^ 32 % 16 * 4096 + s % 2 ^ 16 * 65536)
      / 64 % 64 = a / 2 ^ 36 % 64 := by
    rw [show i % 64 + a / 2 ^ 36 % 64 * 64 + a / 2 ^ 32 % 16 * 4096 + s % 2 ^ 16 * 65536
        = i % 64 + a / 2 ^ 36 % 64 * 64
          + (a / 2 ^ 32 % 16 + s % 2 ^ 16 * 16) * (64 * 64) from by ring]
    exact div_mod_slot _ _ _ _ _ (by norm_num) (by omega) (by omega)
  have e1 : set 64 (StaticDescriptor.new i s a).w1 0 0 0 32 = a % 2 ^ 32 := by
    rw [static_new_w1, set_eq 64 _ _ _ _ _ (by norm_num)]
    simp only [Nat.reducePow]
    omega
  have e2 : set 64 (StaticDescriptor.new i s a).w0 (a % 2 ^ 32) 12 32 4 = a % 2 ^ 36 := by
    rw [static_new_w0, set_eq 64 _ _ _ _ _ (by norm_num)]
    simp only [Nat.reducePow] at hf ⊢
    omega
  have e3 : set 64 (StaticDescriptor.new i s a).w0 (a % 2 ^ 36) 6 36 6 = a % 2 ^ 42 := by
    rw [static_new_w0, set_eq 64 _ _ _ _ _ (by norm_num)]
    simp only [Nat.reducePow] at hg ⊢
    omega
  simp only [StaticDescriptor.address]
  rw [e1, e2, e3]

/-- `BufferDescriptor([u32; 3])`. -/
structure BufferDescriptor where
  w0 : Nat
  w1 : Nat
  w2 : Nat
deriving DecidableEq, Repr

def BufferDescriptor.size (d : BufferDescriptor) : Nat :=
  let size := set 64 d.w0 0 0 0 32
  set 64 d.w2 size 24 32 4

def BufferDescriptor.address (d : BufferDescriptor) : Nat :=
  let addr := set 64 d.w1 0 0 0 32
  let addr := set 64 d.w2 addr 28 32 4
  set 64 d.w2 addr 2 36 22

def BufferDescriptor.mode (d : BufferDescriptor) : Nat := extract d.w2 0 2

def BufferDescriptor.new (address size mode : Nat) : BufferDescriptor :=
  let size_low := castU32 (extract size 0 32)
  let address_low := castU32 (extract address 0 32)
  let inner := set 32 mode 0 0 0 2
  let inner := castU32 (set 64 address inner 32 28 4)
  let inner := castU32 (set 64 size inner 32 24 4)
  let inner := castU32 (set 64 address inner 36 2 22)
  ⟨size_low, address_low, inner⟩

theorem buffer_new_w0 (a s m : Nat) : (BufferDescriptor.new a s m).w0 = s % 2 ^ 32 := by
  simp only [BufferDescriptor.new, castU32]
  simp [extract_eq_div_mod]

theorem buffer_new_w1 (a s m : Nat) : (BufferDescriptor.new a s m).w1 = a % 2 ^ 32 := by
  simp only [BufferDescriptor.new, castU32]
  simp [extract_eq_div_mod]

theorem buffer_new_w2 (a s m : Nat) :
    (BufferDescriptor.new a s m).w2
      = m % 4 + a / 2 ^ 36 % 4194304 * 4 + s / 2 ^ 32 % 16 * 16777216
        + a / 2 ^ 32 % 16 * 268435456 := by
  simp only [BufferDescriptor.new, castU32]
  simp [set_eq, extract_eq_div_mod]
  omega

theorem buffer_rt_mode (a s m : Nat) : (BufferDescriptor.new a s m).mode = m % 4 := by
  rw [BufferDescriptor.mode, buffer_new_w2, extract_eq_div_mod]
  simp only [Nat.reducePow, Nat.sub_zero, Nat.pow_zero, Nat.div_one]
  rw [show m % 4 + a / 68719476736 % 4194304 * 4 + s / 4294967296 % 16 * 16777216
      + a / 4294967296 % 16 * 268435456
    = m % 4 + (a / 68719476736 % 4194304 + s / 4294967296 % 16 * 4194304
      + a / 4294967296 % 16 * 67108864) * 4 from by ring]
  exact mod_slot _ _ _ (by omega)

theorem buffer_rt_size (a s m : Nat) :
    (BufferDescriptor.new a s m).size = s % 2 ^ 36 := by
  have hf : (m % 4 + a / 2 ^ 36 % 4194304 * 4 + s / 2 ^ 32 % 16 * 16777216
      + a / 2 ^ 32 % 16 * 268435456) / 16777216 % 16 = s / 2 ^ 32 % 16 := by
    rw [show m % 4 + a / 2 ^ 36 % 4194304 * 4 + s / 2 ^ 32 % 16 * 16777216
        + a / 2 ^ 32 % 16 * 268435456
      = (m % 4 + a / 2 ^ 36 % 4194304 * 4) + s / 2 ^ 32 % 16 * 16777216
        + a / 2 ^ 32 % 16 * (16777216 * 16) from by ring]
    exact div_mod_slot _ _ _ _ _ (by norm_num) (by omega) (by omega)
  have e1 : set 64 (BufferDescriptor.new a s m).w0 0 0 0 32 = s % 2 ^ 32 := by
    rw [buffer_new_w0, set_eq 64 _ _ _ _ _ (by norm_num)]
    simp only [Nat.reducePow]
    omega
  have e2 : set 64 (BufferDescriptor.new a s m).w2 (s % 2 ^ 32) 24 32 4 = s % 2 ^ 36 := by
    rw [buffer_new_w2, set_eq 64 _ _ _ _ _ (by norm_num)]
    simp only [Nat.reducePow] at hf ⊢
    omega
  simp only [BufferDescriptor.size]
  rw [e1, e2]

theorem buffer_rt_address (a s m : Nat) :
    (BufferDescriptor.new a s m).address = a % 2 ^ 58 := by
  have hf : (m % 4 + a / 2 ^ 36 % 4194304 * 4 + s / 2 ^ 32 % 16 * 16777216
      + a / 2 ^ 32 % 16 * 268435456) / 268435456 % 16 = a / 2 ^ 32 % 16 := by
    rw [show m % 4 + a / 2 ^ 36 % 4194304 * 4 + s / 2 ^ 32 % 16 * 16777216
        + a / 2 ^ 32 % 16 * 268435456
      = (m % 4 + a / 2 ^ 36 % 4194304 * 4 + s / 2 ^ 32 % 16 * 16777216)
        + a / 2 ^ 32 % 16 * 268435456 + 0 * (268435456 * 16) from by ring]
    exact div_mod_slot _ _ _ _ _ (by norm_num) (by omega) (by omega)
  have hg : (m % 4 + a / 2 ^ 36 % 4194304 * 4 + s / 2 ^ 32 % 16 * 16777216
      + a / 2 ^ 32 % 16 * 268435456) / 4 % 4194304 = a / 2 ^ 36 % 4194304 := by
    rw [show m % 4 + a / 2 ^ 36 % 4194304 * 4 + s / 2 ^ 32 % 16 * 16777216
        + a / 2 ^ 32 % 16 * 268435456
      = m % 4 + a / 2 ^ 36 % 4194304 * 4
        + (s / 2 ^ 32 % 16 + a / 2 ^ 32 % 16 * 16) * (4 * 4194304) from by ring]
    exact div_mod_slot _ _ _ _ _ (by norm_num) (by omega) (by omega)
  have e1 : set 64 (BufferDescriptor.new a s m).w1 0 0 0 32 = a % 2 ^ 32 := by
    rw [buffer_new_w1, set_eq 64 _ _ _ _ _ (by norm_num)]
    simp only [Nat.reducePow]
    omega
  have e2 : set 64 (BufferDescriptor.new a s m).w2 (a % 2 ^ 32) 28 32 4 = a % 2 ^ 36 := by
    rw [buffer_new_w2, set_eq 64 _ _ _ _ _ (by norm_num)]
    simp only [Nat.reducePow] at hf ⊢
    omega
  have e3 : set 64 (BufferDescriptor.new a s m).w2 (a % 2 ^ 36) 2 36 22 = a % 2 ^ 58 := by
    rw [buffer_new_w2, set_eq 64 _ _ _ _ _ (by norm_num)]
    simp only [Nat.reducePow] at hg ⊢
    omega
  simp only [BufferDescriptor.address]
  rw [e1, e2, e3]

/-- `ReceiveListEntry([u32; 2])`. -/
structure ReceiveListEntry where
  w0 : Nat
  w1 : Nat
deriving DecidableEq, Repr

def ReceiveListEntry.size (d : ReceiveListEntry) : Nat := extract d.w1 16 32

def ReceiveListEntry.address (d : ReceiveListEntry) : Nat :=
  let addr := set 64 d.w0 0 0 0 32
  set 64 d.w1 addr 0 32 16

def ReceiveListEntry.new (address size : Nat) : ReceiveListEntry :=
  let first := castU32 (extract address 0 32)
  let second := castU32 (set 64 address 0 32 0 16)
  let second := set 32 (castU32 size) second 0 16 16
  ⟨first, second⟩

theorem recvlist_new_w0 (a s : Nat) : (ReceiveListEntry.new a s).w0 = a % 2 ^ 32 := by
  simp only [ReceiveListEntry.new, castU32]
  simp [extract_eq_div_mod]

theorem recvlist_new_w1 (a s : Nat) :
    (ReceiveListEntry.new a s).w1 = a / 2 ^ 32 % 65536 + s % 65536 * 65536 := by
  simp only [ReceiveListEntry.new, castU32]
  simp [set_eq, extract_eq_div_mod]
  omega

theorem recvlist_rt_size (a s : Nat) : (ReceiveListEntry.new a s).size = s % 2 ^ 16 := by
  rw [ReceiveListEntry.size, recvlist_new_w1, extract_eq_div_mod]
  simp only [Nat.reducePow, Nat.reduceSub]
  rw [div_slot _ _ _ (by norm_num) (by omega)]
  omega

theorem recvlist_rt_address (a s : Nat) :
    (ReceiveListEntry.new a s).address = a % 2 ^ 48 := by
  have e1 : set 64 (ReceiveListEntry.new a s).w0 0 0 0 32 = a % 2 ^ 32 := by
    rw [recvlist_new_w0, set_eq 64 _ _ _ _ _ (by norm_num)]
    simp only [Nat.reducePow]
    omega
  have e2 : set 64 (ReceiveListEntry.new a s).w1 (a % 2 ^ 32) 0 32 16 = a % 2 ^ 48 := by
    rw [recvlist_new_w1, set_eq 64 _ _ _ _ _ (by norm_num)]
    simp only [Nat.reducePow]
    omega
  simp only [ReceiveListEntry.address]
  rw [e1, e2]

/-- `SpecialHeader(u32)`. -/
structure SpecialHeader where
  w : Nat
deriving DecidableEq, Repr

def SpecialHeader.send_pid (h : SpecialHeader) : Bool := extract h.w 0 1 != 0

def SpecialHeader.num_copy_handles (h : SpecialHeader) : Nat := extract h.w 1 5

def SpecialHeader.num_move_handles (h : SpecialHeader) : Nat := extract h.w 5 9

def SpecialHeader.new (send_pid : Bool) (num_copy num_move : Nat) : SpecialHeader :=
  let inner := set 32 (if send_pid then 1 else 0) 0 0 0 1
  let inner := set 32 (castU32 num_copy) inner 0 1 4
  let inner := set 32 (castU32 num_move) inner 0 5 4
  ⟨inner⟩

theorem special_new_w (b : Bool) (cp mv : Nat) :
    (SpecialHeader.new b cp mv).w = (if b then 1 else 0) + cp % 16 * 2 + mv % 16 * 32 := by
  simp only [SpecialHeader.new, castU32]
  simp [set_eq, extract_eq_div_mod]
  cases b <;> simp <;> omega

theorem special_rt_pid (b : Bool) (cp mv : Nat) :
    (SpecialHeader.new b cp mv).send_pid = b := by
  rw [SpecialHeader.send_pid, special_new_w, extract_eq_div_mod]
  have : ((if b then 1 else 0) + cp % 16 * 2 + mv % 16 * 32) % 2 = if b then 1 else 0 := by
    rw [show (if b then 1 else 0) + cp % 16 * 2 + mv % 16 * 32
        = (if b then 1 else 0) + (cp % 16 + mv % 16 * 16) * 2 from by ring]
    exact mod_slot _ _ _ (by cases b <;> simp)
  simp only [Nat.reducePow, Nat.pow_zero, Nat.div_one, this]
  cases b <;> simp <;> omega

theorem special_rt_copy (b : Bool) (cp mv : Nat) :
    (SpecialHeader.new b cp mv).num_copy_handles = cp % 16 := by
  rw [SpecialHeader.num_copy_handles, special_new_w, extract_eq_div_mod]
  simp only [Nat.reduceSub, Nat.pow_one, Nat.reducePow]
  rw [show (if b then 1 else 0) + cp % 16 * 2 + mv % 16 * 32
      = (if b then 1 else 0) + cp % 16 * 2 + mv % 16 * (2 * 16) from by ring]
  exact div_mod_slot _ _ _ _ _ (by norm_num) (by cases b <;> simp) (by omega)

theorem special_rt_move (b : Bool) (cp mv : Nat) :
    (SpecialHeader.new b cp mv).num_move_handles = mv % 16 := by
  rw [SpecialHeader.num_move_handles, special_new_w, extract_eq_div_mod]
  simp only [Nat.reduceSub, Nat.reducePow]
  rw [show (if b then 1 else 0) + cp % 16 * 2 + mv % 16 * 32
      = ((if b then 1 else 0) + cp % 16 * 2) + mv % 16 * 32 + 0 * (32 * 16) from by ring]
  exact div_mod_slot _ _ _ _ _ (by norm_num) (by cases b <;> simp <;> omega) (by omega)

/-- The HIPC command `Header([u32; 2])`. -/
structure Header where
  w0 : Nat
  w1 : Nat
deriving DecidableEq, Repr

def Header.ty (h : Header) : Nat := extract h.w0 0 16

def Header.num_send_statics (h : Header) : Nat := extract h.w0 16 20

def Header.num_send_buffers (h : Header) : Nat := extract h.w0 20 24

def Header.num_receive_buffers (h : Header) : Nat := extract h.w0 24 28

def Header.num_exchange_buffers (h : Header) : Nat := extract h.w0 28 32

def Header.raw_data_len (h : Header) : Nat := extract h.w1 0 10

def Header.receive_static_mode (h : Header) : Nat := extract h.w1 10 14

def Header.receive_list_offset (h : Header) : Nat := extract h.w1 20 31

def Header.has_special_header (h : Header) : Bool := extract h.w1 31 32 != 0

def Header.new (ty num_statics num_send_bufs num_recv_bufs num_exch_bufs
    raw_data_len recv_static_mode recv_list_offset : Nat)
    (has_special_header : Bool) : Header :=
  let first := set 32 ty 0 0 0 16
  let first := set 32 (castU32 num_statics) first 0 16 4
  let first := set 32 (castU32 num_send_bufs) first 0 20 4
  let first := set 32 (castU32 num_recv_bufs) first 0 24 4
  let first := set 32 (castU32 num_exch_bufs) first 0 28 4
  let second := set 32 (castU32 raw_data_len) 0 0 0 10
  let second := set 32 recv_static_mode second 0 10 4
  let second := set 32 (castU32 recv_list_offset) second 0 20 11
  let second := set 32 (if has_special_header then 1 else 0) second 0 31 1
  ⟨first, second⟩

theorem header_new_w0 (ty ss sb rb eb rdl md off : Nat) (sh : Bool) :
    (Header.new ty ss sb rb eb rdl md off sh).w0
      = ty % 65536 + ss % 16 * 65536 + sb % 16 * 1048576 + rb % 16 * 16777216
        + eb % 16 * 268435456 := by
  simp only [Header.new, castU32]
  simp [set_eq, extract_eq_div_mod]
  omega

theorem header_new_w1 (ty ss sb rb eb rdl md off : Nat) (sh : Bool) :
    (Header.new ty ss sb rb eb rdl md off sh).w1
      = rdl % 1024 + md % 16 * 1024 + off % 2048 * 1048576
        + (if sh then 1 else 0) * 2147483648 := by
  simp only [Header.new, castU32]
  simp [set_eq, extract_eq_div_mod]
  cases sh <;> simp <;> omega

theorem header_rt_ty (ty ss sb rb eb rdl md off : Nat) (sh : Bool) :
    (Header.new ty ss sb rb eb rdl md off sh).ty = ty % 2 ^ 16 := by
  rw [Header.ty, header_new_w0, extract_eq_div_mod]
  simp only [Nat.reducePow, Nat.sub_zero, Nat.pow_zero, Nat.div_one]
  rw [show ty % 65536 + ss % 16 * 65536 + sb % 16 * 1048576 + rb % 16 * 16777216
      + eb % 16 * 268435456
    = ty % 65536 + (ss % 16 + sb % 16 * 16 + rb % 16 * 256 + eb % 16 * 4096) * 65536
    from by ring]
  exact mod_slot _ _ _ (by omega)

theorem header_rt_ss (ty ss sb rb eb rdl md off : Nat) (sh : Bool) :
    (Header.new ty ss sb rb eb rdl md off sh).num_send_statics = ss % 16 := by
  rw [Header.num_send_statics, header_new_w0, extract_eq_div_mod]
  simp only [Nat.reducePow, Nat.reduceSub]
  rw [show ty % 65536 + ss % 16 * 65536 + sb % 16 * 1048576 + rb % 16 * 16777216
      + eb % 16 * 268435456
    = ty % 65536 + ss % 16 * 65536
      + (sb % 16 + rb % 16 * 16 + eb % 16 * 256) * (65536 * 16) from by ring]
  exact div_mod_slot _ _ _ _ _ (by norm_num) (by omega) (by omega)

theorem header_rt_sb (ty ss sb rb eb rdl md off : Nat) (sh : Bool) :
    (Header.new ty ss sb rb eb rdl md off sh).num_send_buffers = sb % 16 := by
  rw [Header.num_send_buffers, header_new_w0, extract_eq_div_mod]
  simp only [Nat.reducePow, Nat.reduceSub]
  rw [show ty % 65536 + ss % 16 * 65536 + sb % 16 * 1048576 + rb % 16 * 16777216
      + eb % 16 * 268435456
    = (ty % 65536 + ss % 16 * 65536) + sb % 16 * 1048576
      + (rb % 16 + eb % 16 * 16) * (1048576 * 16) from by ring]
  exact div_mod_slot _ _ _ _ _ (by norm_num) (by omega) (by omega)

theorem header_rt_rb (ty ss sb rb eb rdl md off : Nat) (sh : Bool) :
    (Header.new ty ss sb rb eb rdl md off sh).num_receive_buffers = rb % 16 := by
  rw [Header.num_receive_buffers, header_new_w0, extract_eq_div_mod]
  simp only [Nat.reducePow, Nat.reduceSub]
  rw [show ty % 65536 + ss % 16 * 65536 + sb % 16 * 1048576 + rb % 16 * 16777216
      + eb % 16 * 268435456
    = (ty % 65536 + ss % 16 * 65536 + sb % 16 * 1048576) + rb % 16 * 16777216
      + (eb % 16) * (16777216 * 16) from by ring]
  exact div_mod_slot _ _ _ _ _ (by norm_num) (by omega) (by omega)

theorem header_rt_eb (ty ss sb rb eb rdl md off : Nat) (sh : Bool) :
    (Header.new ty ss sb rb eb rdl md off sh).num_exchange_buffers = eb % 16 := by
  rw [Header.num_exchange_buffers, header_new_w0, extract_eq_div_mod]
  simp only [Nat.reducePow, Nat.reduceSub]
  rw [show ty % 65536 + ss % 16 * 65536 + sb % 16 * 1048576 + rb % 16 * 16777216
      + eb % 16 * 268435456
    = (ty % 65536 + ss % 16 * 65536 + sb % 16 * 1048576 + rb % 16 * 16777216)
      + eb % 16 * 268435456 + 0 * (268435456 * 16) from by ring]
  exact div_mod_slot _ _ _ _ _ (by norm_num) (by omega) (by omega)

theorem header_rt_rdl (ty ss sb rb eb rdl md off : Nat) (sh : Bool) :
    (Header.new ty ss sb rb eb rdl md off sh).raw_data_len = rdl % 2 ^ 10 := by
  rw [Header.raw_data_len, header_new_w1, extract_eq_div_mod]
  simp only [Nat.reducePow, Nat.sub_zero, Nat.pow_zero, Nat.div_one]
  rw [show rdl % 1024 + md % 16 * 1024 + off % 2048 * 1048576
      + (if sh then 1 else 0) * 2147483648
    = rdl % 1024 + (md % 16 + off % 2048 * 1024
      + (if sh then 1 else 0) * 2097152) * 1024 from by ring]
  exact mod_slot _ _ _ (by omega)

theorem header_rt_mode (ty ss sb rb eb rdl md off : Nat) (sh : Bool) :
    (Header.new ty ss sb rb eb rdl md off sh).receive_static_mode = md % 16 := by
  rw [Header.receive_static_mode, header_new_w1, extract_eq_div_mod]
  simp only [Nat.reducePow, Nat.reduceSub]
  rw [show rdl % 1024 + md % 16 * 1024 + off % 2048 * 1048576
      + (if sh then 1 else 0) * 2147483648
    = rdl % 1024 + md % 16 * 1024
      + (off % 2048 * 64 + (if sh then 1 else 0) * 131072) * (1024 * 16) from by ring]
  exact div_mod_slot _ _ _ _ _ (by norm_num) (by omega) (by omega)

theorem header_rt_off (ty ss sb rb eb rdl md off : Nat) (sh : Bool) :
    (Header.new ty ss sb rb eb rdl md off sh).receive_list_offset = off % 2 ^ 11 := by
  rw [Header.receive_list_offset, header_new_w1, extract_eq_div_mod]
  simp only [Nat.reducePow, Nat.reduceSub]
  rw [show rdl % 1024 + md % 16 * 1024 + off % 2048 * 1048576
      + (if sh then 1 else 0) * 2147483648
    = (rdl % 1024 + md % 16 * 1024) + off % 2048 * 1048576
      + (if sh then 1 else 0) * (1048576 * 2048) from by ring]
  exact div_mod_slot _ _ _ _ _ (by norm_num) (by omega) (by omega)

theorem header_rt_sh (ty ss sb rb eb rdl md off : Nat) (sh : Bool) :
    (Header.new ty ss sb rb eb rdl md off sh).has_special_header = sh := by
  rw [Header.has_special_header, header_new_w1, extract_eq_div_mod]
  simp only [Nat.reducePow, Nat.reduceSub]
  have : (rdl % 1024 + md % 16 * 1024 + off % 2048 * 1048576
      + (if sh then 1 else 0) * 2147483648) / 2147483648 % 2
      = if sh then 1 else 0 := by
    rw [show rdl % 1024 + md % 16 * 1024 + off % 2048 * 1048576
        + (if sh then 1 else 0) * 2147483648
      = (rdl % 1024 + md % 16 * 1024 + off % 2048 * 1048576)
        + (if sh then 1 else 0) * 2147483648 + 0 * (2147483648 * 2) from by ring]
    exact div_mod_slot _ _ _ _ _ (by norm_num) (by omega) (by cases sh <;> simp)
  rw [this]
  cases sh <;> simp

/-! ## Byte-level serialization -/

/-- `u32::to_le_bytes` (for `x < 2 ^ 32`). -/
def u32le (x : Nat) : List Nat :=
  [x % 256, x / 256 % 256, x / 65536 % 256, x / 16777216 % 256]

/-- `u64::to_le_bytes` (for `x < 2 ^ 64`). -/
def u64le (x : Nat) : List Nat :=
  [x % 256, x / 256 % 256, x / 65536 % 256, x / 16777216 % 256,
   x / 4294967296 % 256, x / 1099511627776 % 256, x / 281474976710656 % 256,
   x / 72057594037927936 % 256]

/-- `impl From<StaticDescriptor> for [u8; 8]`: the interleaved write loop
emits the little-endian bytes of `w0` followed by those of `w1`. -/
def StaticDescriptor.bytes (d : StaticDescriptor) : List Nat := u32le d.w0 ++ u32le d.w1

/-- `impl From<BufferDescriptor> for [u8; 12]`. -/
def BufferDescriptor.bytes (d : BufferDescriptor) : List Nat :=
  u32le d.w0 ++ u32le d.w1 ++ u32le d.w2

/-- `impl From<ReceiveListEntry> for [u8; 8]`. -/
def ReceiveListEntry.bytes (d : ReceiveListEntry) : List Nat := u32le d.w0 ++ u32le d.w1

/-- `impl From<SpecialHeader> for [u8; 4]`. -/
def SpecialHeader.bytes (h : SpecialHeader) : List Nat := u32le h.w

/-- `impl From<Header> for [u8; 8]`. -/
def Header.bytes (h : Header) : List Nat := u32le h.w0 ++ u32le h.w1

/-- `helpers::byte_array_write`; `none` models the
`"Input data will exceed base!"` panic. -/
def byte_array_write (base input : List Nat) (start : Nat) : Option (List Nat) :=
  if start + input.length > base.length then none
  else some (base.take start ++ input ++ base.drop (start + input.length))

/-- `helpers::safe_increment`; `none` models the overflow panic. -/
def safe_increment (current maxv : Nat) : Option Nat :=
  if current ≥ maxv then none else some (current + 1)

/-- One `while` write loop of a `build` function: write each chunk at the
cursor, advancing it by the chunk's byte length. -/
def writeChunks (out : List Nat) (idx : Nat) : List (List Nat) → Option (List Nat × Nat)
  | [] => some (out, idx)
  | c :: rest => do
    let out' ← byte_array_write out c idx
    writeChunks out' (idx + c.length) rest

/-! ## Special header builder, from `src/header.rs` -/

/-- `SpecialHeaderBuilder`; the const generics `PIDS`, `CP`, `MV` are the
lengths of the three lists. -/
structure SpecialHeaderBuilder where
  process_ids : List Nat
  copy_handles : List Nat
  move_handles : List Nat
deriving DecidableEq, Repr

/-- `header::consumed_space` (the `TOTAL` const generic of the builder). -/
def shConsumedSpace (pids copy mv : Nat) : Nat := pids * 8 + copy * 4 + mv * 4 + 4

def SpecialHeaderBuilder.total (b : SpecialHeaderBuilder) : Nat :=
  shConsumedSpace b.process_ids.length b.copy_handles.length b.move_handles.length

/-- `header::new_builder` / `SpecialHeaderBuilder::new`. -/
def sh_new_builder : SpecialHeaderBuilder := ⟨[], [], []⟩

/-- `with_program_id` (max 1); `none` models the composition failure. -/
def SpecialHeaderBuilder.with_program_id (b : SpecialHeaderBuilder) (process_id : Nat) :
    Option SpecialHeaderBuilder :=
  (safe_increment b.process_ids.length 1).map fun _ =>
    { b with process_ids := b.process_ids ++ [process_id] }

/-- `with_copy_handle` (max 15). -/
def SpecialHeaderBuilder.with_copy_handle (b : SpecialHeaderBuilder) (handle : Nat) :
    Option SpecialHeaderBuilder :=
  (safe_increment b.copy_handles.length 15).map fun _ =>
    { b with copy_handles := b.copy_handles ++ [handle] }

/-- `with_move_handle` (max 15). -/
def SpecialHeaderBuilder.with_move_handle (b : SpecialHeaderBuilder) (handle : Nat) :
    Option SpecialHeaderBuilder :=
  (safe_increment b.move_handles.length 15).map fun _ =>
    { b with move_handles := b.move_handles ++ [handle] }

/-- `SpecialHeaderBuilder::build`. -/
def SpecialHeaderBuilder.build (b : SpecialHeaderBuilder) : Option (List Nat) := do
  let header := SpecialHeader.new (decide (b.process_ids.length ≠ 0))
    b.copy_handles.length b.move_handles.length
  let out ← byte_array_write (List.replicate b.total 0) header.bytes 0
  let (out, write_index) ← writeChunks out header.bytes.length (b.process_ids.map u64le)
  let (out, write_index) ← writeChunks out write_index (b.copy_handles.map u32le)
  let (out, _) ← writeChunks out write_index (b.move_handles.map u32le)
  some out

/-! ## Command builder, from `src/command.rs` and `src/lib.rs` -/

inductive CommandType where
  | invalid
  | legacyRequest
  | close
  | legacyControl
  | request
  | control
  | requestWithContext
  | controlWithContext
deriving DecidableEq, Repr

/-- The `#[repr(u16)]` discriminant (`self.ty as u16`). -/
def CommandType.toNat : CommandType → Nat
  | .invalid => 0
  | .legacyRequest => 1
  | .close => 2
  | .legacyControl => 3
  | .request => 4
  | .control => 5
  | .requestWithContext => 6
  | .controlWithContext => 7

/-- `HipcCommandBuilder`; the const generics `SS … INLINE_BUFFER_LEN` are the
lengths of the lists (and `TOTAL` is recomputed by `consumed_space`). -/
structure HipcCommandBuilder where
  ty : CommandType
  send_statics : List StaticDescriptor
  send_buffers : List BufferDescriptor
  recv_buffers : List BufferDescriptor
  exch_buffers : List BufferDescriptor
  recv_statics : List ReceiveListEntry
  special_hdrs : List SpecialHeaderBuilder
  pointer_bufs : List ReceiveListEntry
  raw_data : List Nat
  inline_buffer : List Nat
deriving DecidableEq, Repr

/-- `helpers::panic_on_invalid_recv_list`: `true` when that function panics. -/
def invalid_recv_list (recv_statics inline_buff_len : Nat) (has_pointer_buffer : Bool) : Bool :=
  (decide (recv_statics ≠ 0) && decide (inline_buff_len ≠ 0)) ||
    (decide (recv_statics ≠ 0) && has_pointer_buffer) ||
    (decide (inline_buff_len ≠ 0) && has_pointer_buffer)

/-- `helpers::consumed_space`; `none` models its panic. -/
def consumed_space (send_statics send_buffers recv_buffers exch_buffers recv_statics
    raw_len inline_buff_len special_header_total : Nat) (has_pointer_buffer : Bool) :
    Option Nat :=
  if invalid_recv_list recv_statics inline_buff_len has_pointer_buffer then none
  else some (8 + 8 * send_statics + 12 * send_buffers + 12 * recv_buffers
    + 12 * exch_buffers + 4 * raw_len + special_header_total
    + (if recv_statics > 0 then 8 * recv_statics
       else if inline_buff_len ≠ 0 then inline_buff_len
       else if has_pointer_buffer then 8 else 0))

/-- `helpers::consumed_space_for_tls`: also fails above
`MAX_TLS_BUFFER_SIZE = 0x100`.  It is defined in the source but never called
by any composition step. -/
def consumed_space_for_tls (send_statics send_buffers recv_buffers exch_buffers recv_statics
    raw_len inline_buff_len special_header_total : Nat) (has_pointer_buffer : Bool) :
    Option Nat :=
  (consumed_space send_statics send_buffers recv_buffers exch_buffers recv_statics
    raw_len inline_buff_len special_header_total has_pointer_buffer).bind fun total =>
      if total > 256 then none else some total

/-- `helpers::get_recv_mode`; the `(recv_statics as u8) + 2` is modelled with
wrapping `u8` arithmetic. -/
def get_recv_mode (recv_statics inline_buff_len : Nat) (has_pointer_buffer : Bool) :
    Option Nat :=
  if invalid_recv_list recv_statics inline_buff_len has_pointer_buffer then none
  else some (if recv_statics ≠ 0 then (recv_statics % 256 + 2) % 256
    else if inline_buff_len ≠ 0 then 1
    else if has_pointer_buffer then 2 else 0)

/-- The `SH_TOTAL` const generic tracked for the attached special header. -/
def HipcCommandBuilder.sh_total (b : HipcCommandBuilder) : Nat :=
  (b.special_hdrs.map SpecialHeaderBuilder.total).sum

/-- The `TOTAL` const generic: `consumed_space` applied to the current shape. -/
def HipcCommandBuilder.consumed (b : HipcCommandBuilder) : Option Nat :=
  consumed_space b.send_statics.length b.send_buffers.length b.recv_buffers.length
    b.exch_buffers.length b.recv_statics.length b.raw_data.length b.inline_buffer.length
    b.sh_total (decide (b.pointer_bufs.length ≠ 0))

/-- `HipcCommandBuilder::new` / `new_builder`. -/
def new_builder (ty : CommandType) : HipcCommandBuilder :=
  ⟨ty, [], [], [], [], [], [], [], [], []⟩

def HipcCommandBuilder.with_send_static (b : HipcCommandBuilder) (desc : StaticDescriptor) :
    Option HipcCommandBuilder := do
  let _ ← safe_increment b.send_statics.length 15
  let b' := { b with send_statics := b.send_statics ++ [desc] }
  let _ ← b'.consumed
  some b'

def HipcCommandBuilder.with_send_buffer (b : HipcCommandBuilder) (desc : BufferDescriptor) :
    Option HipcCommandBuilder := do
  let _ ← safe_increment b.send_buffers.length 15
  let b' := { b with send_buffers := b.send_buffers ++ [desc] }
  let _ ← b'.consumed
  some b'

def HipcCommandBuilder.with_recv_buffer (b : HipcCommandBuilder) (desc : BufferDescriptor) :
    Option HipcCommandBuilder := do
  let _ ← safe_increment b.recv_buffers.length 15
  let b' := { b with recv_buffers := b.recv_buffers ++ [desc] }
  let _ ← b'.consumed
  some b'

def HipcCommandBuilder.with_exch_buffer (b : HipcCommandBuilder) (desc : BufferDescriptor) :
    Option HipcCommandBuilder := do
  let _ ← safe_increment b.exch_buffers.length 15
  let b' := { b with exch_buffers := b.exch_buffers ++ [desc] }
  let _ ← b'.consumed
  some b'

def HipcCommandBuilder.with_recv_static (b : HipcCommandBuilder) (desc : ReceiveListEntry) :
    Option HipcCommandBuilder := do
  let _ ← safe_increment b.recv_statics.length 13
  let b' := { b with recv_statics := b.recv_statics ++ [desc] }
  let _ ← b'.consumed
  some b'

def HipcCommandBuilder.with_special_header (b : HipcCommandBuilder)
    (header : SpecialHeaderBuilder) : Option HipcCommandBuilder := do
  let _ ← safe_increment b.special_hdrs.length 1
  let b' := { b with special_hdrs := [header] }
  let _ ← b'.consumed
  some b'

def HipcCommandBuilder.with_pointer_buffer (b : HipcCommandBuilder)
    (desc : ReceiveListEntry) : Option HipcCommandBuilder := do
  let _ ← safe_increment b.pointer_bufs.length 1
  let b' := { b with pointer_bufs := b.pointer_bufs ++ [desc] }
  let _ ← b'.consumed
  some b'

def HipcCommandBuilder.with_raw_data (b : HipcCommandBuilder) (data : List Nat) :
    Option HipcCommandBuilder := do
  let b' := { b with raw_data := data }
  let _ ← b'.consumed
  some b'

def HipcCommandBuilder.with_inline_buffer (b : HipcCommandBuilder) (data : List Nat) :
    Option HipcCommandBuilder := do
  let b' := { b with inline_buffer := data }
  let _ ← b'.consumed
  some b'

/-- The cursor advance before the inline buffer:
`write_index = (write_index + 15) & !16` on a 64-bit `usize`. -/
def inline_align (write_index : Nat) : Nat := (write_index + 15) &&& wnot 64 16

/-- `HipcCommandBuilder::build`. -/
def HipcCommandBuilder.build (b : HipcCommandBuilder) : Option (List Nat) := do
  let total ← b.consumed
  let mode ← get_recv_mode b.recv_statics.length b.inline_buffer.length
    (decide (b.pointer_bufs.length ≠ 0))
  let header := Header.new b.ty.toNat b.send_statics.length b.send_buffers.length
    b.recv_buffers.length b.exch_buffers.length b.raw_data.length mode 0
    (decide (b.special_hdrs.length ≠ 0))
  let raw ← byte_array_write (List.replicate total 0) header.bytes 0
  let write_index := header.bytes.length
  let shBytes ← b.special_hdrs.mapM SpecialHeaderBuilder.build
  let (raw, write_index) ← writeChunks raw write_index shBytes
  let (raw, write_index) ← writeChunks raw write_index
    (b.send_statics.map StaticDescriptor.bytes)
  let (raw, write_index) ← writeChunks raw write_index
    (b.send_buffers.map BufferDescriptor.bytes)
  let (raw, write_index) ← writeChunks raw write_index
    (b.recv_buffers.map BufferDescriptor.bytes)
  let (raw, write_index) ← writeChunks raw write_index
    (b.exch_buffers.map BufferDescriptor.bytes)
  let (raw, write_index) ← writeChunks raw write_index (b.raw_data.map u32le)
  let (raw, write_index) ←
    if b.inline_buffer.length > 0 then do
      let write_index := inline_align write_index
      -- the source calls `byte_array_write` here but never assigns its result
      let _ ← byte_array_write raw b.inline_buffer write_index
      some (raw, write_index + b.inline_buffer.length)
    else some (raw, write_index)
  let (raw, write_index) ← writeChunks raw write_index
    (b.pointer_bufs.map ReceiveListEntry.bytes)
  let (raw, _) ← writeChunks raw write_index
    (b.recv_statics.map ReceiveListEntry.bytes)
  some raw

/-- The composition operations of the command builder. -/
inductive Op where
  | sendStatic (desc : StaticDescriptor)
  | sendBuffer (desc : BufferDescriptor)
  | recvBuffer (desc : BufferDescriptor)
  | exchBuffer (desc : BufferDescriptor)
  | recvStatic (desc : ReceiveListEntry)
  | specialHeader (header : SpecialHeaderBuilder)
  | pointerBuffer (desc : ReceiveListEntry)
  | rawData (data : List Nat)
  | inlineBuffer (data : List Nat)
deriving DecidableEq, Repr

def step (b : HipcCommandBuilder) : Op → Option HipcCommandBuilder
  | .sendStatic d => b.with_send_static d
  | .sendBuffer d => b.with_send_buffer d
  | .recvBuffer d => b.with_recv_buffer d
  | .exchBuffer d => b.with_exch_buffer d
  | .recvStatic d => b.with_recv_static d
  | .specialHeader h => b.with_special_header h
  | .pointerBuffer d => b.with_pointer_buffer d
  | .rawData d => b.with_raw_data d
  | .inlineBuffer d => b.with_inline_buffer d

/-- Running a sequence of composition operations. -/
def runOps (b : HipcCommandBuilder) : List Op → Option HipcCommandBuilder
  | [] => some b
  | op :: rest => (step b op).bind fun b' => runOps b' rest

/-! ## Success conditions of the composition operations -/

theorem with_send_static_eq (b : HipcCommandBuilder) (d : StaticDescriptor) :
    b.with_send_static d =
      if b.send_statics.length < 15 ∧ invalid_recv_list b.recv_statics.length
          b.inline_buffer.length (decide (b.pointer_bufs.length ≠ 0)) = false
      then some { b with send_statics := b.send_statics ++ [d] } else none := by
  rw [HipcCommandBuilder.with_send_static]
  simp only [safe_increment, HipcCommandBuilder.consumed, consumed_space,
    HipcCommandBuilder.sh_total]
  split_ifs <;> simp_all <;> omega

theorem with_send_buffer_eq (b : HipcCommandBuilder) (d : BufferDescriptor) :
    b.with_send_buffer d =
      if b.send_buffers.length < 15 ∧ invalid_recv_list b.recv_statics.length
          b.inline_buffer.length (decide (b.pointer_bufs.length ≠ 0)) = false
      then some { b with send_buffers := b.send_buffers ++ [d] } else none := by
  rw [HipcCommandBuilder.with_send_buffer]
  simp only [safe_increment, HipcCommandBuilder.consumed, consumed_space,
    HipcCommandBuilder.sh_total]
  split_ifs <;> simp_all <;> omega

theorem with_recv_buffer_eq (b : HipcCommandBuilder) (d : BufferDescriptor) :
    b.with_recv_buffer d =
      if b.recv_buffers.length < 15 ∧ invalid_recv_list b.recv_statics.length
          b.inline_buffer.length (decide (b.pointer_bufs.length ≠ 0)) = false
      then some { b with recv_buffers := b.recv_buffers ++ [d] } else none := by
  rw [HipcCommandBuilder.with_recv_buffer]
  simp only [safe_increment, HipcCommandBuilder.consumed, consumed_space,
    HipcCommandBuilder.sh_total]
  split_ifs <;> simp_all <;> omega

theorem with_exch_buffer_eq (b : HipcCommandBuilder) (d : BufferDescriptor) :
    b.with_exch_buffer d =
      if b.exch_buffers.length < 15 ∧ invalid_recv_list b.recv_statics.length
          b.inline_buffer.length (decide (b.pointer_bufs.length ≠ 0)) = false
      then some { b with exch_buffers := b.exch_buffers ++ [d] } else none := by
  rw [HipcCommandBuilder.with_exch_buffer]
  simp only [safe_increment, HipcCommandBuilder.consumed, consumed_space,
    HipcCommandBuilder.sh_total]
  split_ifs <;> simp_all <;> omega

theorem with_recv_static_eq (b : HipcCommandBuilder) (d : ReceiveListEntry) :
    b.with_recv_static d =
      if b.recv_statics.length < 13 ∧ invalid_recv_list (b.recv_statics.length + 1)
          b.inline_buffer.length (decide (b.pointer_bufs.length ≠ 0)) = false
      then some { b with recv_statics := b.recv_statics ++ [d] } else none := by
  rw [HipcCommandBuilder.with_recv_static]
  simp only [safe_increment, HipcCommandBuilder.consumed, consumed_space,
    HipcCommandBuilder.sh_total]
  split_ifs <;> simp_all
  omega

theorem with_special_header_eq (b : HipcCommandBuilder) (h : SpecialHeaderBuilder) :
    b.with_special_header h =
      if b.special_hdrs.length < 1 ∧ invalid_recv_list b.recv_statics.length
          b.inline_buffer.length (decide (b.pointer_bufs.length ≠ 0)) = false
      then some { b with special_hdrs := [h] } else none := by
  rw [HipcCommandBuilder.with_special_header]
  simp only [safe_increment, HipcCommandBuilder.consumed, consumed_space,
    HipcCommandBuilder.sh_total]
  split_ifs <;> simp_all

theorem with_pointer_buffer_eq (b : HipcCommandBuilder) (d : ReceiveListEntry) :
    b.with_pointer_buffer d =
      if b.pointer_bufs.length < 1 ∧ invalid_recv_list b.recv_statics.length
          b.inline_buffer.length true = false
      then some { b with pointer_bufs := b.pointer_bufs ++ [d] } else none := by
  rw [HipcCommandBuilder.with_pointer_buffer]
  simp only [safe_increment, HipcCommandBuilder.consumed, consumed_space,
    HipcCommandBuilder.sh_total]
  split_ifs <;> simp_all

theorem with_raw_data_eq (b : HipcCommandBuilder) (data : List Nat) :
    b.with_raw_data data =
      if invalid_recv_list b.recv_statics.length b.inline_buffer.length
          (decide (b.pointer_bufs.length ≠ 0)) = false
      then some { b with raw_data := data } else none := by
  rw [HipcCommandBuilder.with_raw_data]
  simp only [HipcCommandBuilder.consumed, consumed_space, HipcCommandBuilder.sh_total]
  split_ifs <;> simp_all

theorem with_inline_buffer_eq (b : HipcCommandBuilder) (data : List Nat) :
    b.with_inline_buffer data =
      if invalid_recv_list b.recv_statics.length data.length
          (decide (b.pointer_bufs.length ≠ 0)) = false
      then some { b with inline_buffer := data } else none := by
  rw [HipcCommandBuilder.with_inline_buffer]
  simp only [HipcCommandBuilder.consumed, consumed_space, HipcCommandBuilder.sh_total]
  split_ifs <;> simp_all

/-! ## The reachable-state invariant -/

/-- Shape invariant of every builder state reachable from `new_builder`:
every cardinality is within its ceiling and the receive-list constructs are
pairwise mutually exclusive. -/
def Inv (b : HipcCommandBuilder) : Prop :=
  b.send_statics.length ≤ 15 ∧ b.send_buffers.length ≤ 15 ∧
    b.recv_buffers.length ≤ 15 ∧ b.exch_buffers.length ≤ 15 ∧
    b.recv_statics.length ≤ 13 ∧ b.special_hdrs.length ≤ 1 ∧
    b.pointer_bufs.length ≤ 1 ∧
    (b.recv_statics.length = 0 ∨ b.inline_buffer.length = 0) ∧
    (b.recv_statics.length = 0 ∨ b.pointer_bufs.length = 0) ∧
    (b.inline_buffer.length = 0 ∨ b.pointer_bufs.length = 0)

theorem inv_new_builder (ty : CommandType) : Inv (new_builder ty) := by
  simp [Inv, new_builder]

theorem step_inv {b b' : HipcCommandBuilder} {op : Op} (hi : Inv b)
    (h : step b op = some b') : Inv b' := by
  obtain ⟨h1, h2, h3, h4, h5, h6, h7, h8, h9, h10⟩ := hi
  cases op <;>
    simp only [step, with_send_static_eq, with_send_buffer_eq, with_recv_buffer_eq,
      with_exch_buffer_eq, with_recv_static_eq, with_special_header_eq,
      with_pointer_buffer_eq, with_raw_data_eq, with_inline_buffer_eq] at h <;>
    split_ifs at h with hc <;>
    simp only [Option.some.injEq] at h <;>
    subst h <;>
    simp only [invalid_recv_list, Bool.or_eq_false_iff, Bool.and_eq_false_iff,
      decide_eq_false_iff_not, Decidable.not_not, decide_eq_true_eq] at hc <;>
    unfold Inv <;>
    simp_all <;>
    omega

theorem runOps_inv {b b' : HipcCommandBuilder} {ops : List Op} (hi : Inv b)
    (h : runOps b ops = some b') : Inv b' := by
  induction ops generalizing b with
  | nil => simp [runOps] at h; subst h; exact hi
  | cons op rest ih =>
    simp only [runOps, Option.bind_eq_bind] at h
    rcases Option.bind_eq_some.mp h with ⟨b1, hb1, hrest⟩
    exact ih (step_inv hi hb1) hrest

theorem invalid_recv_list_eq_false {b : HipcCommandBuilder} (hi : Inv b) :
    invalid_recv_list b.recv_statics.length b.inline_buffer.length
      (decide (b.pointer_bufs.length ≠ 0)) = false := by
  obtain ⟨_, _, _, _, _, _, _, h8, h9, h10⟩ := hi
  simp only [invalid_recv_list, Bool.or_eq_false_iff, Bool.and_eq_false_iff,
    decide_eq_false_iff_not, Decidable.not_not]
  omega

/-- The exact success condition of each composition operation (at a state
satisfying the reachability invariant): the cardinality ceiling, plus — for
the three receive-list constructs — mutual exclusion. -/
def stepAllowed (b : HipcCommandBuilder) : Op → Prop
  | .sendStatic _ => b.send_statics.length < 15
  | .sendBuffer _ => b.send_buffers.length < 15
  | .recvBuffer _ => b.recv_buffers.length < 15
  | .exchBuffer _ => b.exch_buffers.length < 15
  | .recvStatic _ => b.recv_statics.length < 13 ∧ b.inline_buffer.length = 0
      ∧ b.pointer_bufs.length = 0
  | .specialHeader _ => b.special_hdrs.length < 1
  | .pointerBuffer _ => b.pointer_bufs.length < 1 ∧ b.recv_statics.length = 0
      ∧ b.inline_buffer.length = 0
  | .rawData _ => True
  | .inlineBuffer data => data.length = 0
      ∨ (b.recv_statics.length = 0 ∧ b.pointer_bufs.length = 0)

theorem step_isSome_iff {b : HipcCommandBuilder} (hi : Inv b) (op : Op) :
    (step b op).isSome = true ↔ stepAllowed b op := by
  have hinv := invalid_recv_list_eq_false hi
  obtain ⟨h1, h2, h3, h4, h5, h6, h7, h8, h9, h10⟩ := hi
  cases op with
  | sendStatic d =>
    rw [step, with_send_static_eq, stepAllowed]
    split_ifs with hc <;> simp_all
  | sendBuffer d =>
    rw [step, with_send_buffer_eq, stepAllowed]
    split_ifs with hc <;> simp_all
  | recvBuffer d =>
    rw [step, with_recv_buffer_eq, stepAllowed]
    split_ifs with hc <;> simp_all
  | exchBuffer d =>
    rw [step, with_exch_buffer_eq, stepAllowed]
    split_ifs with hc <;> simp_all
  | recvStatic d =>
    rw [step, with_recv_static_eq, stepAllowed]
    split_ifs with hc <;>
      simp only [invalid_recv_list, Bool.or_eq_false_iff, Bool.and_eq_false_iff,
        decide_eq_false_iff_not, Decidable.not_not] at hc <;>
      simp_all
  | specialHeader h =>
    rw [step, with_special_header_eq, stepAllowed]
    split_ifs with hc <;> simp_all
  | pointerBuffer d =>
    rw [step, with_pointer_buffer_eq, stepAllowed]
    split_ifs with hc <;>
      simp only [invalid_recv_list, Bool.or_eq_false_iff, Bool.and_eq_false_iff,
        decide_eq_false_iff_not, Decidable.not_not] at hc <;>
      simp_all
  | rawData d =>
    rw [step, with_raw_data_eq, stepAllowed]
    split_ifs <;> simp_all
  | inlineBuffer d =>
    rw [step, with_inline_buffer_eq, stepAllowed]
    split_ifs with hc <;>
      simp only [invalid_recv_list, Bool.or_eq_false_iff, Bool.and_eq_false_iff,
        decide_eq_false_iff_not, Decidable.not_not] at hc <;>
      (simp_all
       tauto)

/-- The composition operations of the special header builder. -/
inductive ShOp where
  | programId (pid : Nat)
  | copyHandle (handle : Nat)
  | moveHandle (handle : Nat)
deriving DecidableEq, Repr

def shStep (b : SpecialHeaderBuilder) : ShOp → Option SpecialHeaderBuilder
  | .programId p => b.with_program_id p
  | .copyHandle h => b.with_copy_handle h
  | .moveHandle h => b.with_move_handle h

/-- The exact success condition of each special-header operation. -/
def shAllowed (b : SpecialHeaderBuilder) : ShOp → Prop
  | .programId _ => b.process_ids.length < 1
  | .copyHandle _ => b.copy_handles.length < 15
  | .moveHandle _ => b.move_handles.length < 15

theorem shStep_isSome_iff (b : SpecialHeaderBuilder) (op : ShOp) :
    (shStep b op).isSome = true ↔ shAllowed b op := by
  cases op <;>
    simp [shStep, shAllowed, SpecialHeaderBuilder.with_program_id,
      SpecialHeaderBuilder.with_copy_handle, SpecialHeaderBuilder.with_move_handle,
      safe_increment]

/-! ## Exact-fit serialization lemmas -/

theorem byte_array_write_prefix (pre : List Nat) (n : Nat) (input : List Nat)
    (h : input.length ≤ n) :
    byte_array_write (pre ++ List.replicate n 0) input pre.length
      = some (pre ++ input ++ List.replicate (n - input.length) 0) := by
  rw [byte_array_write, if_neg (by simp; omega)]
  congr 1
  rw [List.take_append_eq_append_take, List.take_length, Nat.sub_self, List.take_zero,
    List.append_nil, List.drop_append_eq_append_drop]
  simp [List.drop_replicate]

theorem writeChunks_exact (chunks : List (List Nat)) (pre : List Nat) (n : Nat)
    (h : ((chunks.map List.length).sum ≤ n)) :
    writeChunks (pre ++ List.replicate n 0) pre.length chunks
      = some (pre ++ chunks.flatten ++ List.replicate (n - (chunks.map List.length).sum) 0,
          pre.length + (chunks.map List.length).sum) := by
  induction chunks generalizing pre n with
  | nil => simp [writeChunks]
  | cons c rest ih =>
    simp only [List.map_cons, List.sum_cons] at h
    rw [writeChunks, byte_array_write_prefix pre n c (by omega)]
    simp only [Option.bind_eq_bind, Option.some_bind]
    rw [show pre ++ c ++ List.replicate (n - c.length) 0
        = (pre ++ c) ++ List.replicate (n - c.length) 0 from by simp,
      show pre.length + c.length = (pre ++ c).length from by simp,
      ih (pre ++ c) (n - c.length) (by omega)]
    simp only [List.map_cons, List.sum_cons, List.flatten, Option.some.injEq, Prod.mk.injEq]
    constructor
    · rw [show n - c.length - (rest.map List.length).sum
          = n - (c.length + (rest.map List.length).sum) from by omega]
      simp [List.append_assoc]
    · simp
      omega

theorem map_len_sum {α : Type} (f : α → List Nat) (k : Nat)
    (hf : ∀ x, (f x).length = k) : ∀ l : List α,
    ((l.map f).map List.length).sum = k * l.length
  | [] => by simp
  | x :: rest => by
    rw [List.map_cons, List.map_cons, List.sum_cons, hf x, map_len_sum f k hf rest,
      List.length_cons]
    ring


theorem byte_array_write_zero (n : Nat) (input : List Nat) (h : input.length ≤ n) :
    byte_array_write (List.replicate n 0) input 0
      = some (input ++ List.replicate (n - input.length) 0) := by
  rw [byte_array_write, if_neg (by simp; omega)]
  simp [List.drop_replicate]

/-- `SpecialHeaderBuilder::build` never fails and serializes, in order: the
packed 4-byte word, the PID (8 bytes each, at most one), the copy handles
(4 bytes each), the move handles (4 bytes each). -/
theorem sh_build_eq (b : SpecialHeaderBuilder) :
    b.build = some ((SpecialHeader.new (decide (b.process_ids.length ≠ 0))
        b.copy_handles.length b.move_handles.length).bytes
      ++ (b.process_ids.map u64le).flatten
      ++ (b.copy_handles.map u32le).flatten
      ++ (b.move_handles.map u32le).flatten) := by
  have hplen := map_len_sum u64le 8 (fun x => by simp [u64le]) b.process_ids
  have hclen := map_len_sum u32le 4 (fun x => by simp [u32le]) b.copy_handles
  have hmlen := map_len_sum u32le 4 (fun x => by simp [u32le]) b.move_handles
  have htot : b.total = b.process_ids.length * 8 + b.copy_handles.length * 4
      + b.move_handles.length * 4 + 4 := rfl
  have hb : (SpecialHeader.new (decide (b.process_ids.length ≠ 0))
      b.copy_handles.length b.move_handles.length).bytes.length = 4 := by
    simp [SpecialHeader.bytes, u32le]
  rw [SpecialHeaderBuilder.build, byte_array_write_zero b.total _ (by rw [hb]; omega)]
  simp only [Option.bind_eq_bind, Option.some_bind]
  rw [writeChunks_exact _ _ _ (by rw [hplen, hb]; omega)]
  simp only [Option.some_bind]
  rw [show (SpecialHeader.new (decide (b.process_ids.length ≠ 0)) b.copy_handles.length
        b.move_handles.length).bytes.length
        + (List.map List.length (List.map u64le b.process_ids)).sum
      = ((SpecialHeader.new (decide (b.process_ids.length ≠ 0)) b.copy_handles.length
          b.move_handles.length).bytes
        ++ (List.map u64le b.process_ids).flatten).length from by simp]
  rw [writeChunks_exact _ _ _ (by omega)]
  simp only [Option.some_bind]
  rw [show ((SpecialHeader.new (decide (b.process_ids.length ≠ 0)) b.copy_handles.length
          b.move_handles.length).bytes
        ++ (List.map u64le b.process_ids).flatten).length
        + (List.map List.length (List.map u32le b.copy_handles)).sum
      = ((SpecialHeader.new (decide (b.process_ids.length ≠ 0)) b.copy_handles.length
          b.move_handles.length).bytes
        ++ (List.map u64le b.process_ids).flatten
        ++ (List.map u32le b.copy_handles).flatten).length from by simp; omega]
  rw [writeChunks_exact _ _ _ (by omega)]
  simp only [Option.some_bind, Option.some.injEq]
  rw [show b.total
        - (SpecialHeader.new (decide (b.process_ids.length ≠ 0)) b.copy_handles.length
          b.move_handles.length).bytes.length
        - (List.map List.length (List.map u64le b.process_ids)).sum
        - (List.map List.length (List.map u32le b.copy_handles)).sum
        - (List.map List.length (List.map u32le b.move_handles)).sum = 0 from by omega]
  simp

/-! ## The claims -/

/-- C5: in every builder state reachable from `new_builder` — hence in every
successfully built command — the receive-statics count, the inline-buffer
length, and the pointer-buffer presence are pairwise mutually exclusive; a
composition step whose result would make two of them non-zero therefore
cannot succeed, since `step` preserves this invariant. -/
theorem recv_list_mutual_exclusion (ty : CommandType) (ops : List Op)
    (b : HipcCommandBuilder) (h : runOps (new_builder ty) ops = some b) :
    (b.recv_statics.length = 0 ∨ b.inline_buffer.length = 0) ∧
      (b.recv_statics.length = 0 ∨ b.pointer_bufs.length = 0) ∧
      (b.inline_buffer.length = 0 ∨ b.pointer_bufs.length = 0) := by
  obtain ⟨_, _, _, _, _, _, _, h8, h9, h10⟩ := runOps_inv (inv_new_builder ty) h
  exact ⟨h8, h9, h10⟩

theorem recv_list_mutual_exclusion_witness :
    (([⟨16, 2097152⟩] : List ReceiveListEntry).length = 0 ∨ ([] : List Nat).length = 0) ∧
      (([⟨16, 2097152⟩] : List ReceiveListEntry).length = 0
        ∨ ([] : List ReceiveListEntry).length = 0) ∧
      (([] : List Nat).length = 0 ∨ ([] : List ReceiveListEntry).length = 0) :=
  recv_list_mutual_exclusion CommandType.request [Op.recvStatic ⟨16, 2097152⟩]
    ⟨CommandType.request, [], [], [], [], [⟨16, 2097152⟩], [], [], [], []⟩ (by decide)

/-- C10: every reachable builder has at most 13 receive statics, so the
receive-static mode computed by `get_recv_mode` is at most 15 and the 4-bit
header field (`receive_static_mode`, bits `[10..14)` of word 1) stores it
without truncation. -/
theorem recv_mode_no_truncation (ty : CommandType) (ops : List Op)
    (b : HipcCommandBuilder) (h : runOps (new_builder ty) ops = some b) :
    b.recv_statics.length ≤ 13 ∧
      ∃ m, get_recv_mode b.recv_statics.length b.inline_buffer.length
          (decide (b.pointer_bufs.length ≠ 0)) = some m ∧ m ≤ 15 ∧
        (Header.new b.ty.toNat b.send_statics.length b.send_buffers.length
            b.recv_buffers.length b.exch_buffers.length b.raw_data.length m 0
            (decide (b.special_hdrs.length ≠ 0))).receive_static_mode = m := by
  have hi := runOps_inv (inv_new_builder ty) h
  have hinv := invalid_recv_list_eq_false hi
  obtain ⟨h1, h2, h3, h4, h5, h6, h7, h8, h9, h10⟩ := hi
  refine ⟨h5, ?_⟩
  rw [get_recv_mode, if_neg (by rw [hinv]; simp)]
  refine ⟨_, rfl, ?_, ?_⟩
  · split_ifs <;> omega
  · rw [header_rt_mode]
    split_ifs <;> omega

theorem recv_mode_no_truncation_witness :
    ([⟨16, 2097152⟩] : List ReceiveListEntry).length ≤ 13 ∧
      ∃ m, get_recv_mode ([⟨16, 2097152⟩] : List ReceiveListEntry).length
          ([] : List Nat).length (decide (([] : List ReceiveListEntry).length ≠ 0))
          = some m ∧ m ≤ 15 ∧
        (Header.new CommandType.request.toNat ([] : List StaticDescriptor).length
            ([] : List BufferDescriptor).length ([] : List BufferDescriptor).length
            ([] : List BufferDescriptor).length ([] : List Nat).length m 0
            (decide (([] : List SpecialHeaderBuilder).length ≠ 0))).receive_static_mode
          = m :=
  recv_mode_no_truncation CommandType.request [Op.recvStatic ⟨16, 2097152⟩]
    ⟨CommandType.request, [], [], [], [], [⟨16, 2097152⟩], [], [], [], []⟩ (by decide)

/-- C8: for every reachable builder state, the 4 bits at `[10..14)` of header
word 1 built by `build` (via `Header::new` and `get_recv_mode`) equal:
`recv_statics + 2` when `recv_statics > 0`, else `1` when the inline buffer
is non-empty, else `2` when a pointer buffer is present, else `0`. -/
theorem header_recv_mode_law (ty : CommandType) (ops : List Op)
    (b : HipcCommandBuilder) (h : runOps (new_builder ty) ops = some b) :
    ∃ m, get_recv_mode b.recv_statics.length b.inline_buffer.length
        (decide (b.pointer_bufs.length ≠ 0)) = some m ∧
      extract (Header.new b.ty.toNat b.send_statics.length b.send_buffers.length
          b.recv_buffers.length b.exch_buffers.length b.raw_data.length m 0
          (decide (b.special_hdrs.length ≠ 0))).w1 10 14
        = (if b.recv_statics.length > 0 then b.recv_statics.length + 2
           else if b.inline_buffer.length > 0 then 1
           else if b.pointer_bufs.length ≠ 0 then 2 else 0) := by
  have hi := runOps_inv (inv_new_builder ty) h
  have hinv := invalid_recv_list_eq_false hi
  obtain ⟨h1, h2, h3, h4, h5, h6, h7, h8, h9, h10⟩ := hi
  rw [get_recv_mode, if_neg (by rw [hinv]; simp)]
  refine ⟨_, rfl, ?_⟩
  rw [show extract (Header.new b.ty.toNat b.send_statics.length b.send_buffers.length
      b.recv_buffers.length b.exch_buffers.length b.raw_data.length _ 0
      (decide (b.special_hdrs.length ≠ 0))).w1 10 14
    = (Header.new b.ty.toNat b.send_statics.length b.send_buffers.length
      b.recv_buffers.length b.exch_buffers.length b.raw_data.length _ 0
      (decide (b.special_hdrs.length ≠ 0))).receive_static_mode from rfl]
  rw [header_rt_mode]
  split_ifs <;>
    simp only [decide_eq_true_eq, Bool.not_eq_true, decide_eq_false_iff_not] at * <;>
    omega

theorem header_recv_mode_law_witness :
    ∃ m, get_recv_mode ([] : List ReceiveListEntry).length ([170] : List Nat).length
        (decide (([] : List ReceiveListEntry).length ≠ 0)) = some m ∧
      extract (Header.new CommandType.request.toNat ([] : List StaticDescriptor).length
          ([] : List BufferDescriptor).length ([] : List BufferDescriptor).length
          ([] : List BufferDescriptor).length ([] : List Nat).length m 0
          (decide (([] : List SpecialHeaderBuilder).length ≠ 0))).w1 10 14
        = (if ([] : List ReceiveListEntry).length > 0
              then ([] : List ReceiveListEntry).length + 2
           else if ([170] : List Nat).length > 0 then 1
           else if ([] : List ReceiveListEntry).length ≠ 0 then 2 else 0) :=
  header_recv_mode_law CommandType.request [Op.inlineBuffer [170]]
    ⟨CommandType.request, [], [], [], [], [], [], [], [], [170]⟩ (by decide)

/-- C6 counterexample: after composing a 1-byte inline buffer,
`with_recv_static` fails although the builder holds 0 of the 13 allowed
receive statics — composition failure is not solely a matter of the
cardinality ceiling. -/
theorem recv_static_fails_below_ceiling :
    (runOps (new_builder CommandType.request) [Op.inlineBuffer [170]]).isSome = true ∧
      ((runOps (new_builder CommandType.request) [Op.inlineBuffer [170]]).bind
        (fun b => step b (Op.recvStatic ⟨0, 0⟩))) = none ∧
      ((runOps (new_builder CommandType.request) [Op.inlineBuffer [170]]).map
        (fun b => b.recv_statics.length)) = some 0 := by
  refine ⟨by decide, by decide, by decide⟩

/-- C6 (amended): at every builder state reachable from `new_builder`, each
composition operation fails exactly when its cardinality ceiling is reached
(15 send statics / send buffers / receive buffers / exchange buffers / copy
handles / move handles, 13 receive statics, 1 special header / pointer
buffer / process id) or — only for `with_recv_static`,
`with_pointer_buffer`, and a non-empty `with_inline_buffer` — when the
receive-list mutual exclusion would be violated; otherwise it succeeds and
appends the element. -/
theorem composition_failure_characterization (ty : CommandType) (ops : List Op)
    (b : HipcCommandBuilder) (h : runOps (new_builder ty) ops = some b) (op : Op)
    (shb : SpecialHeaderBuilder) (shop : ShOp) :
    ((step b op).isSome = true ↔ stepAllowed b op) ∧
      ((shStep shb shop).isSome = true ↔ shAllowed shb shop) :=
  ⟨step_isSome_iff (runOps_inv (inv_new_builder ty) h) op, shStep_isSome_iff shb shop⟩

theorem composition_failure_characterization_witness :
    ((step (new_builder CommandType.request) (Op.sendStatic ⟨0, 0⟩)).isSome = true
        ↔ stepAllowed (new_builder CommandType.request) (Op.sendStatic ⟨0, 0⟩)) ∧
      ((shStep sh_new_builder (ShOp.copyHandle 5)).isSome = true
        ↔ shAllowed sh_new_builder (ShOp.copyHandle 5)) :=
  composition_failure_characterization CommandType.request []
    (new_builder CommandType.request) rfl (Op.sendStatic ⟨0, 0⟩)
    sh_new_builder (ShOp.copyHandle 5)

/-- C7: for each packed type, reading every accessor on the constructor's
result returns the corresponding input reduced modulo 2 to the power of the
field's encoded bit-width — over-range inputs are silently truncated:
`StaticDescriptor` index/size/address at 6/16/42 bits, `BufferDescriptor`
size/address/mode at 36/58/2 bits, `ReceiveListEntry` address/size at 48/16
bits, `SpecialHeader` PID-flag/copy/move at 1/4/4 bits, and `Header` kind,
four counts, raw length, mode, offset, flag at 16/4/4/4/4/10/4/11/1 bits. -/
theorem packed_descriptor_roundtrip (idx sz addr md cp mv kd ss sb rb eb rdl off : Nat)
    (pid shf : Bool) :
    ((StaticDescriptor.new idx sz addr).index = idx % 2 ^ 6 ∧
      (StaticDescriptor.new idx sz addr).size = sz % 2 ^ 16 ∧
      (StaticDescriptor.new idx sz addr).address = addr % 2 ^ 42) ∧
    ((BufferDescriptor.new addr sz md).size = sz % 2 ^ 36 ∧
      (BufferDescriptor.new addr sz md).address = addr % 2 ^ 58 ∧
      (BufferDescriptor.new addr sz md).mode = md % 2 ^ 2) ∧
    ((ReceiveListEntry.new addr sz).address = addr % 2 ^ 48 ∧
      (ReceiveListEntry.new addr sz).size = sz % 2 ^ 16) ∧
    ((SpecialHeader.new pid cp mv).send_pid = pid ∧
      (SpecialHeader.new pid cp mv).num_copy_handles = cp % 2 ^ 4 ∧
      (SpecialHeader.new pid cp mv).num_move_handles = mv % 2 ^ 4) ∧
    ((Header.new kd ss sb rb eb rdl md off shf).ty = kd % 2 ^ 16 ∧
      (Header.new kd ss sb rb eb rdl md off shf).num_send_statics = ss % 2 ^ 4 ∧
      (Header.new kd ss sb rb eb rdl md off shf).num_send_buffers = sb % 2 ^ 4 ∧
      (Header.new kd ss sb rb eb rdl md off shf).num_receive_buffers = rb % 2 ^ 4 ∧
      (Header.new kd ss sb rb eb rdl md off shf).num_exchange_buffers = eb % 2 ^ 4 ∧
      (Header.new kd ss sb rb eb rdl md off shf).raw_data_len = rdl % 2 ^ 10 ∧
      (Header.new kd ss sb rb eb rdl md off shf).receive_static_mode = md % 2 ^ 4 ∧
      (Header.new kd ss sb rb eb rdl md off shf).receive_list_offset = off % 2 ^ 11 ∧
      (Header.new kd ss sb rb eb rdl md off shf).has_special_header = shf) :=
  ⟨⟨static_rt_index idx sz addr, static_rt_size idx sz addr, static_rt_address idx sz addr⟩,
   ⟨buffer_rt_size addr sz md, buffer_rt_address addr sz md, buffer_rt_mode addr sz md⟩,
   ⟨recvlist_rt_address addr sz, recvlist_rt_size addr sz⟩,
   ⟨special_rt_pid pid cp mv, special_rt_copy pid cp mv, special_rt_move pid cp mv⟩,
   ⟨header_rt_ty kd ss sb rb eb rdl md off shf, header_rt_ss kd ss sb rb eb rdl md off shf,
    header_rt_sb kd ss sb rb eb rdl md off shf, header_rt_rb kd ss sb rb eb rdl md off shf,
    header_rt_eb kd ss sb rb eb rdl md off shf, header_rt_rdl kd ss sb rb eb rdl md off shf,
    header_rt_mode kd ss sb rb eb rdl md off shf, header_rt_off kd ss sb rb eb rdl md off shf,
    header_rt_sh kd ss sb rb eb rdl md off shf⟩⟩

/-- C9: `SpecialHeaderBuilder::build` serializes, little-endian: first the
4-byte packed word — emitted even when empty — whose bit 0 is the PID flag
and whose fields at bits `[1..5)` / `[5..9)` are the copy and move counts;
then the process ID as 8 bytes if present; then each copy handle and each
move handle, 4 bytes each, in insertion order; the total length is
`4 + 8·pids + 4·copies + 4·moves`. -/
theorem special_header_serialization (b : SpecialHeaderBuilder)
    (_hp : b.process_ids.length ≤ 1) (hc : b.copy_handles.length ≤ 15)
    (hm : b.move_handles.length ≤ 15) :
    b.build = some ((SpecialHeader.new (decide (b.process_ids.length ≠ 0))
        b.copy_handles.length b.move_handles.length).bytes
      ++ (b.process_ids.map u64le).flatten
      ++ (b.copy_handles.map u32le).flatten
      ++ (b.move_handles.map u32le).flatten) ∧
    ((SpecialHeader.new (decide (b.process_ids.length ≠ 0))
        b.copy_handles.length b.move_handles.length).bytes
      ++ (b.process_ids.map u64le).flatten
      ++ (b.copy_handles.map u32le).flatten
      ++ (b.move_handles.map u32le).flatten).length
      = 4 + 8 * b.process_ids.length + 4 * b.copy_handles.length
        + 4 * b.move_handles.length ∧
    (SpecialHeader.new (decide (b.process_ids.length ≠ 0)) b.copy_handles.length
      b.move_handles.length).send_pid = decide (b.process_ids.length ≠ 0) ∧
    (SpecialHeader.new (decide (b.process_ids.length ≠ 0)) b.copy_handles.length
      b.move_handles.length).num_copy_handles = b.copy_handles.length ∧
    (SpecialHeader.new (decide (b.process_ids.length ≠ 0)) b.copy_handles.length
      b.move_handles.length).num_move_handles = b.move_handles.length := by
  refine ⟨sh_build_eq b, ?_, special_rt_pid _ _ _, ?_, ?_⟩
  · have hplen := map_len_sum u64le 8 (fun x => by simp [u64le]) b.process_ids
    have hclen := map_len_sum u32le 4 (fun x => by simp [u32le]) b.copy_handles
    have hmlen := map_len_sum u32le 4 (fun x => by simp [u32le]) b.move_handles
    have hb : (SpecialHeader.new (decide (b.process_ids.length ≠ 0))
        b.copy_handles.length b.move_handles.length).bytes.length = 4 := by
      simp [SpecialHeader.bytes, u32le]
    simp only [List.length_append, List.length_flatten, hb]
    simp at hplen hclen hmlen ⊢
    omega
  · rw [special_rt_copy]
    omega
  · rw [special_rt_move]
    omega

theorem special_header_serialization_witness :
    (SpecialHeaderBuilder.build ⟨[], [4294934529], []⟩
        = some ((SpecialHeader.new (decide (([] : List Nat).length ≠ 0))
            ([4294934529] : List Nat).length ([] : List Nat).length).bytes
          ++ (([] : List Nat).map u64le).flatten
          ++ (([4294934529] : List Nat).map u32le).flatten
          ++ (([] : List Nat).map u32le).flatten)) ∧
      ((SpecialHeader.new (decide (([] : List Nat).length ≠ 0))
            ([4294934529] : List Nat).length ([] : List Nat).length).bytes
          ++ (([] : List Nat).map u64le).flatten
          ++ (([4294934529] : List Nat).map u32le).flatten
          ++ (([] : List Nat).map u32le).flatten).length
        = 4 + 8 * ([] : List Nat).length + 4 * ([4294934529] : List Nat).length
          + 4 * ([] : List Nat).length ∧
      (SpecialHeader.new (decide (([] : List Nat).length ≠ 0))
        ([4294934529] : List Nat).length ([] : List Nat).length).send_pid
        = decide (([] : List Nat).length ≠ 0) ∧
      (SpecialHeader.new (decide (([] : List Nat).length ≠ 0))
        ([4294934529] : List Nat).length ([] : List Nat).length).num_copy_handles
        = ([4294934529] : List Nat).length ∧
      (SpecialHeader.new (decide (([] : List Nat).length ≠ 0))
        ([4294934529] : List Nat).length ([] : List Nat).length).num_move_handles
        = ([] : List Nat).length :=
  special_header_serialization ⟨[], [4294934529], []⟩ (by decide) (by decide) (by decide)

set_option maxRecDepth 8000 in
/-- C1 (the code violates the claim): `consumed_space_for_tls` is never
invoked by any composition step, so a 63-word raw-data payload — 260 bytes
in total — is accepted at configuration time and `build()` returns a byte
array longer than the 256-byte TLS cap. -/
theorem tls_cap_not_enforced :
    (runOps (new_builder CommandType.request) [Op.rawData (List.replicate 63 0)]).isSome
        = true ∧
      ((runOps (new_builder CommandType.request)
          [Op.rawData (List.replicate 63 0)]).bind HipcCommandBuilder.build).map
        List.length = some 260 ∧
      256 < 260 ∧
      consumed_space_for_tls 0 0 0 0 0 63 0 0 false = none := by
  refine ⟨by decide, by decide, by decide, by decide⟩

/-- C2 (the code violates the claim): the composition raw-data (3 words) +
inline buffer (16 bytes) passes every configuration check, yet `build()`
fails: the broken cursor advance `(20 + 15) & !16 = 35` makes the inline
`byte_array_write` overrun the 36-byte output and panic. -/
theorem build_fails_after_accepted_composition :
    (runOps (new_builder CommandType.request)
        [Op.rawData [0, 0, 0], Op.inlineBuffer (List.replicate 16 170)]).isSome = true ∧
      ((runOps (new_builder CommandType.request)
          [Op.rawData [0, 0, 0], Op.inlineBuffer (List.replicate 16 170)]).bind
        HipcCommandBuilder.build) = none := by
  refine ⟨by decide, by decide⟩

/-- C3 (the code violates the claim): `build()` discards the result of the
inline-buffer `byte_array_write`, so for an 8-byte `0xAA` inline buffer the
output after the 8-byte header stays all zeros instead of the buffer bytes
(and the cursor, `(8 + 15) & !16 = 7`, is not 16-byte aligned either). -/
theorem inline_buffer_bytes_not_written :
    ((runOps (new_builder CommandType.request)
        [Op.inlineBuffer (List.replicate 8 170)]).bind HipcCommandBuilder.build)
        = some [4, 0, 0, 0, 0, 4, 0, 0, 0, 0, 0, 0, 0, 0, 0, 0] ∧
      inline_align 8 = 7 := by
  refine ⟨by decide, by decide⟩

/-- C4 (the code violates the claim): the cursor advance is
`(x + 15) & !16`, which only clears bit 4; at `x = 20` (8-byte header plus
3 raw words) it yields 35, which is not divisible by 16, whereas the
round-up `(x + 15) & !15` the claim describes yields 32. -/
theorem inline_align_not_sixteen_aligned :
    inline_align 20 = 35 ∧ 35 % 16 ≠ 0 ∧ (20 + 15) &&& wnot 64 15 = 32 := by
  refine ⟨by decide, by decide, by decide⟩
